import Mathlib

/-!
Verification development for the gradleInit template pipeline
(`gradleInit.py`): the inline-hint parser (`TemplateHintParser`), the
compiled-template cache (`TemplateMetadata`), the context resolver
(`ContextBuilder`) and the value validators.  Python strings are modelled
as `List Char`; Python dicts as insertion-ordered association lists;
filesystem effects as explicit state records.  The two concrete regular
expressions `ENHANCED_PATTERN` and `PLAIN_PATTERN` are hand-compiled to
deterministic matchers that reproduce Python `re` backtracking order for
exactly those patterns.  ASCII inputs are assumed where Python `re` /
`str` methods are Unicode aware (`\s`, `\d`, `str.lower`): the whitespace
set below lists the control characters Python treats as `\s`, digits and
identifier characters in the source patterns are ASCII-explicit.
-/

namespace GradleInit

abbrev LStr := List Char

/-- Python `\s` (and `str.strip` default) for the ASCII control range:
space, tab, newline, carriage return, vertical tab, form feed, and the
file/group/record/unit separators 0x1c-0x1f. -/
def pyWhite (c : Char) : Bool :=
  c = ' ' || c = '\t' || c = '\n' || c = '\x0d' || c = '\x0b' || c = '\x0c' ||
  c = '\x1c' || c = '\x1d' || c = '\x1e' || c = '\x1f'

/-- ASCII decimal digit, as matched by `\d` on ASCII input. -/
def isDigitC (c : Char) : Bool := '0' ≤ c && c ≤ '9'

/-- First character of `[a-zA-Z_][a-zA-Z0-9_]*`. -/
def isIdentStart (c : Char) : Bool :=
  ('a' ≤ c && c ≤ 'z') || ('A' ≤ c && c ≤ 'Z') || c = '_'

/-- Continuation character of `[a-zA-Z_][a-zA-Z0-9_]*`. -/
def isIdentChar (c : Char) : Bool := isIdentStart c || isDigitC c

/-- Model of `str.lower` on ASCII letters. -/
def pyLowerChar (c : Char) : Char :=
  if 'A' ≤ c && c ≤ 'Z' then Char.ofNat (c.toNat + 32) else c

def pyLower (s : LStr) : LStr := s.map pyLowerChar

/-- Model of `str.strip()` with default (whitespace) argument. -/
def pyStrip (s : LStr) : LStr :=
  ((s.dropWhile pyWhite).reverse.dropWhile pyWhite).reverse

/-- Model of `str.split(sep)` on a single-character separator: every occurrence
splits, empty pieces are kept. -/
def pySplit (sep : Char) : LStr → List LStr
  | [] => [[]]
  | c :: rest =>
    let r := pySplit sep rest
    if c = sep then [] :: r
    else match r with
      | [] => [[c]]
      | p :: ps => (c :: p) :: ps

/-- Model of `str.split(sep, 1)` restricted to the case where `sep` occurs:
split at the first occurrence. -/
def pySplitOnce (sep : Char) : LStr → Option (LStr × LStr)
  | [] => none
  | c :: rest =>
    if c = sep then some ([], rest)
    else (pySplitOnce sep rest).map (fun p => (c :: p.1, p.2))

/-- Model of `str.rsplit(sep, 1)` restricted to the case where `sep` occurs:
split at the last occurrence. -/
def pyRSplitOnce (sep : Char) (s : LStr) : Option (LStr × LStr) :=
  (pySplitOnce sep s.reverse).map (fun p => (p.2.reverse, p.1.reverse))

/-- Value of an ASCII digit character. -/
def digitVal (c : Char) : Nat := c.toNat - '0'.toNat

/-- Model of `int(s)` for a nonempty all-digit string (the `\d+` sort group). -/
def natOfDigits (s : LStr) : Nat := s.foldl (fun a c => a * 10 + digitVal c) 0

/-- Digit tail of the Python integer literal syntax: digits with single
underscores allowed between digits. -/
def pyIntTail : LStr → Nat → Option Nat
  | [], acc => some acc
  | '_' :: c :: rest, acc =>
    if isDigitC c then pyIntTail rest (acc * 10 + digitVal c) else none
  | ['_'], _ => none
  | c :: rest, acc =>
    if isDigitC c then pyIntTail rest (acc * 10 + digitVal c) else none

/-- Nonempty digit group (with underscores) for `int(...)`. -/
def pyIntDigits : LStr → Option Nat
  | [] => none
  | c :: rest => if isDigitC c then pyIntTail rest (digitVal c) else none

/-- Python `int(s)` on ASCII input: optional surrounding whitespace,
optional sign, base-10 digits with single underscores between digits;
`none` models the `ValueError`. -/
def pyInt (s : LStr) : Option Int :=
  match pyStrip s with
  | '+' :: rest => (pyIntDigits rest).map Int.ofNat
  | '-' :: rest => (pyIntDigits rest).map (fun n => -(n : Int))
  | rest => (pyIntDigits rest).map Int.ofNat

/-- Does `pat` occur as a contiguous substring? -/
def hasSub (pat : LStr) : LStr → Bool
  | [] => pat.isPrefixOf []
  | s@(_ :: rest) => pat.isPrefixOf s || hasSub pat rest

/-! ## The hand-compiled `ENHANCED_PATTERN` and `PLAIN_PATTERN` matchers

`ENHANCED_PATTERN` in the source is
`\{\{\s*@@(?:(\d+)\|)?(?:\(([^)]+)\)\|)?([^@]+?)@@([a-zA-Z_][a-zA-Z0-9_]*)\s*\}\}`
and `PLAIN_PATTERN` is `\{\{\s*([a-zA-Z_][a-zA-Z0-9_]*)\s*\}\}`.
Every quantified subexpression of these patterns is deterministic
(`\s*`, `\d+`, `[^)]+`, `[^@]+?`, ident) because the character that ends
each maximal run can never satisfy the element that follows it, so the
only genuine backtracking is over the two optional groups; the matchers
below try the branches in the order Python uses: sort-present before
sort-absent and, within each, pattern-present before pattern-absent. -/

/-- Strip an exact literal prefix (a literal run in the pattern). -/
def eatLit : LStr → LStr → Option LStr
  | [], s => some s
  | _, [] => none
  | p :: ps, c :: cs => if c = p then eatLit ps cs else none

/-- Longest prefix satisfying `p`, and the remainder (a maximal-run
quantifier such as `\s*` or `[^@]+`). -/
def spanP (p : Char → Bool) : LStr → LStr × LStr
  | [] => ([], [])
  | c :: cs =>
    if p c then
      let r := spanP p cs
      (c :: r.1, r.2)
    else ([], c :: cs)

/-- Capture groups of one `ENHANCED_PATTERN` match: sort digits, regex
pattern, raw help text, variable name. -/
structure EnhMatch where
  sortStr : Option LStr
  rePat : Option LStr
  helpRaw : LStr
  varName : LStr
deriving DecidableEq, Repr

/-- The optional group `(?:(\d+)\|)?`, present branch. -/
def sortGroup (s : LStr) : Option (LStr × LStr) :=
  let r := spanP isDigitC s
  if r.1.isEmpty then none
  else match eatLit ['|'] r.2 with
    | none => none
    | some rest => some (r.1, rest)

/-- The optional group `(?:\(([^)]+)\)\|)?`, present branch. -/
def parenGroup (s : LStr) : Option (LStr × LStr) :=
  match eatLit ['('] s with
  | none => none
  | some r1 =>
    let r := spanP (fun c => !(c = ')')) r1
    if r.1.isEmpty then none
    else match eatLit [')', '|'] r.2 with
      | none => none
      | some rest => some (r.1, rest)

/-- The fixed tail `([^@]+?)@@([a-zA-Z_][a-zA-Z0-9_]*)\s*\}\}`:
help text, then the variable name, returning (help, name, remainder). -/
def enhTail (s : LStr) : Option (LStr × LStr × LStr) :=
  let h := spanP (fun c => !(c = '@')) s
  if h.1.isEmpty then none
  else match eatLit ['@', '@'] h.2 with
    | none => none
    | some r2 =>
      match r2 with
      | [] => none
      | c :: cs =>
        if isIdentStart c then
          let w := spanP isIdentChar cs
          let ws := spanP pyWhite w.2
          match eatLit ['\x7d', '\x7d'] ws.2 with
          | none => none
          | some rest => some (h.1, c :: w.1, rest)
        else none

/-- Branches with the sort group absent, in the order Python uses:
pattern-present first, then pattern-absent. -/
def enhBodyNoSort (s : LStr) : Option (EnhMatch × LStr) :=
  match parenGroup s with
  | some (p, r) =>
    match enhTail r with
    | some (h, n, rest) => some (⟨none, some p, h, n⟩, rest)
    | none =>
      match enhTail s with
      | some (h, n, rest) => some (⟨none, none, h, n⟩, rest)
      | none => none
  | none =>
    match enhTail s with
    | some (h, n, rest) => some (⟨none, none, h, n⟩, rest)
    | none => none

/-- Branches with the sort group present (digits `ds`, remainder `r1`),
in the order Python uses: pattern-present first, then pattern-absent. -/
def enhBodyWithSort (ds : LStr) (r1 : LStr) : Option (EnhMatch × LStr) :=
  match parenGroup r1 with
  | some (p, r2) =>
    match enhTail r2 with
    | some (h, n, rest) => some (⟨some ds, some p, h, n⟩, rest)
    | none =>
      match enhTail r1 with
      | some (h, n, rest) => some (⟨some ds, none, h, n⟩, rest)
      | none => none
  | none =>
    match enhTail r1 with
    | some (h, n, rest) => some (⟨some ds, none, h, n⟩, rest)
    | none => none

/-- Body after `\{\{\s*@@`: the two optional groups then the tail, with
the backtracking order Python uses over the four branch combinations. -/
def enhBody (s : LStr) : Option (EnhMatch × LStr) :=
  match sortGroup s with
  | some (ds, r1) =>
    match enhBodyWithSort ds r1 with
    | some m => some m
    | none => enhBodyNoSort s
  | none => enhBodyNoSort s

/-- Match `ENHANCED_PATTERN` anchored at the head of `s`; on success
return the capture groups and the text after the match. -/
def matchEnhancedAt (s : LStr) : Option (EnhMatch × LStr) :=
  match eatLit ['\x7b', '\x7b'] s with
  | none => none
  | some r1 =>
    let ws := spanP pyWhite r1
    match eatLit ['@', '@'] ws.2 with
    | none => none
    | some r2 => enhBody r2

/-- Match `PLAIN_PATTERN` anchored at the head of `s`; on success return
the variable name and the text after the match. -/
def matchPlainAt (s : LStr) : Option (LStr × LStr) :=
  match eatLit ['\x7b', '\x7b'] s with
  | none => none
  | some r1 =>
    let ws := spanP pyWhite r1
    match ws.2 with
    | [] => none
    | c :: cs =>
      if isIdentStart c then
        let w := spanP isIdentChar cs
        let ws2 := spanP pyWhite w.2
        match eatLit ['\x7d', '\x7d'] ws2.2 with
        | none => none
        | some rest => some (c :: w.1, rest)
      else none

/-! ## `ENHANCED_PATTERN.sub` and `compile_template` -/

/-- The replacement string (open braces, space, var_name, space, close
braces) built by
the local `replace_enhanced` function of `compile_template`. -/
def subEnhRepl (name : LStr) : LStr :=
  '\x7b' :: '\x7b' :: ' ' :: (name ++ [' ', '\x7d', '\x7d'])

/-- Model of `re.sub` scan for `ENHANCED_PATTERN`: leftmost non-overlapping
matches are replaced, scanning resumes after each match.  `fuel` bounds
the recursion; `subEnhanced` supplies `s.length`, which suffices because
every match consumes at least one character. -/
def subEnhGo : Nat → LStr → LStr
  | 0, s => s
  | _ + 1, [] => []
  | fuel + 1, c :: cs =>
    match matchEnhancedAt (c :: cs) with
    | some (m, rest) => subEnhRepl m.varName ++ subEnhGo fuel rest
    | none => c :: subEnhGo fuel cs

/-- Model of `ENHANCED_PATTERN.sub(replace_enhanced, content)`. -/
def subEnhanced (s : LStr) : LStr := subEnhGo s.length s

/-- Model of `compile_template`: read the file (`none` models
`UnicodeDecodeError` / `PermissionError`, answered with `""`), then strip
enhanced placeholders. -/
def compile_template (sourceRead : Option LStr) : LStr :=
  match sourceRead with
  | none => []
  | some content => subEnhanced content

/-- Does `ENHANCED_PATTERN` match anywhere in `s`? -/
def hasEnhMatch : LStr → Bool
  | [] => false
  | c :: cs => (matchEnhancedAt (c :: cs)).isSome || hasEnhMatch cs

/-! ## Variable registry (`TemplateVariable`, `_add_variable`, `_parse_file`) -/

/-- Model of `TemplateVariable` dataclass.  File paths are modelled as strings;
`locations` is the `[(file, line_number), ...]` list. -/
structure TemplateVariable where
  name : LStr
  help_text : LStr
  sort_order : Int
  regex_pattern : Option LStr
  default_value : Option LStr
  locations : List (LStr × Nat)
  is_enhanced : Bool
deriving DecidableEq, Repr

/-- Model of `self.variables`: a Python dict, i.e. an insertion-ordered
association list with unique keys. -/
abbrev Registry := List (LStr × TemplateVariable)

/-- Dict lookup (`name in self.variables` / `self.variables[name]`). -/
def regLookup (reg : Registry) (n : LStr) : Option TemplateVariable :=
  match reg with
  | [] => none
  | (k, v) :: rest => if k = n then some v else regLookup rest n

/-- In-place dict update `self.variables[name] = v` for a present key:
replaces the first entry, keeping insertion order. -/
def regReplace (reg : Registry) (n : LStr) (v : TemplateVariable) : Registry :=
  match reg with
  | [] => []
  | (k, w) :: rest =>
    if k = n then (k, v) :: rest else (k, w) :: regReplace rest n v

/-- Model of `TemplateHintParser._add_variable`. -/
def add_variable (reg : Registry) (var_name help_text : LStr) (sort_order : Int)
    (regex_pattern default_value : Option LStr) (file_path : LStr)
    (line_number : Nat) (is_enhanced : Bool) : Registry :=
  match regLookup reg var_name with
  | some var =>
    let var := { var with locations := var.locations ++ [(file_path, line_number)] }
    let var :=
      if is_enhanced && !var.is_enhanced then
        { var with help_text := help_text, sort_order := sort_order,
                   regex_pattern := regex_pattern, default_value := default_value,
                   is_enhanced := true }
      else var
    regReplace reg var_name var
  | none =>
    reg ++ [(var_name, ⟨var_name, help_text, sort_order, regex_pattern,
                        default_value, [(file_path, line_number)], is_enhanced⟩)]

/-- Model of `ENHANCED_PATTERN.finditer` over one line: leftmost non-overlapping
matches in order. -/
def enhMatchesGo : Nat → LStr → List EnhMatch
  | 0, _ => []
  | _ + 1, [] => []
  | fuel + 1, c :: cs =>
    match matchEnhancedAt (c :: cs) with
    | some (m, rest) => m :: enhMatchesGo fuel rest
    | none => enhMatchesGo fuel cs

def enhMatches (s : LStr) : List EnhMatch := enhMatchesGo s.length s

/-- Model of `PLAIN_PATTERN.finditer` over one line: the matched variable names. -/
def plainMatchesGo : Nat → LStr → List LStr
  | 0, _ => []
  | _ + 1, [] => []
  | fuel + 1, c :: cs =>
    match matchPlainAt (c :: cs) with
    | some (n, rest) => n :: plainMatchesGo fuel rest
    | none => plainMatchesGo fuel cs

def plainMatches (s : LStr) : List LStr := plainMatchesGo s.length s

/-- Processing of one enhanced match inside `_parse_file`: sort order
defaults to 999, help text is stripped and split at the rightmost `=`
into help and default. -/
def processEnhMatch (file_path : LStr) (line_number : Nat) (reg : Registry)
    (m : EnhMatch) : Registry :=
  let sort_order : Int := match m.sortStr with
    | some ds => (natOfDigits ds : Int)
    | none => 999
  let help_text := pyStrip m.helpRaw
  let hd : LStr × Option LStr :=
    if help_text.contains '=' then
      match pyRSplitOnce '=' help_text with
      | some (h, d) => (pyStrip h, some (pyStrip d))
      | none => (help_text, none)
    else (help_text, none)
  add_variable reg m.varName hd.1 sort_order m.rePat hd.2 file_path line_number true

/-- Processing of one plain match inside `_parse_file`: skipped when the
variable is already registered as enhanced. -/
def processPlainMatch (file_path : LStr) (line_number : Nat) (reg : Registry)
    (n : LStr) : Registry :=
  let keep : Bool := match regLookup reg n with
    | some var => !var.is_enhanced
    | none => true
  if keep then add_variable reg n [] 999 none none file_path line_number false
  else reg

/-- One line of `_parse_file`: all enhanced matches first, then all plain
matches (each checked against the current registry state). -/
def parseLine (file_path : LStr) (line_number : Nat) (reg : Registry)
    (line : LStr) : Registry :=
  let reg := (enhMatches line).foldl (processEnhMatch file_path line_number) reg
  (plainMatches line).foldl (processPlainMatch file_path line_number) reg

def parseLinesFrom (file_path : LStr) : Registry → Nat → List LStr → Registry
  | reg, _, [] => reg
  | reg, n, l :: ls => parseLinesFrom file_path (parseLine file_path n reg l) (n + 1) ls

/-- Model of `TemplateHintParser._parse_file`: a file that fails to decode
(`none`) is skipped silently; otherwise the content is split on newlines
and scanned line by line, numbering from 1. -/
def parse_file (file_path : LStr) (readRes : Option LStr) (reg : Registry) : Registry :=
  match readRes with
  | none => reg
  | some content => parseLinesFrom file_path reg 1 (pySplit '\n' content)

/-! ## Context resolution (`ContextBuilder`) -/

/-- Python values that flow through the rendering context. -/
inductive PyVal where
  | vstr : LStr → PyVal
  | vbool : Bool → PyVal
  | vint : Int → PyVal
  | vlist : List LStr → PyVal
deriving DecidableEq, Repr

/-- A Python dict of context values: insertion-ordered, unique keys. -/
abbrev Ctx := List (LStr × PyVal)

def dget (d : Ctx) (k : LStr) : Option PyVal :=
  match d with
  | [] => none
  | (k', v) :: rest => if k' = k then some v else dget rest k

/-- Model of `d[k] = v`: overwrite in place if present, else append. -/
def dset (d : Ctx) (k : LStr) (v : PyVal) : Ctx :=
  match d with
  | [] => [(k, v)]
  | (k', w) :: rest =>
    if k' = k then (k', v) :: rest else (k', w) :: dset rest k v

/-- Model of `ctx.update(other)`: assign every entry of `other` in order. -/
def dupdate (d : Ctx) (other : Ctx) : Ctx :=
  other.foldl (fun c kv => dset c kv.1 kv.2) d

/-- Model of `ContextBuilder._parse_env_value`: typed coercion of a string,
applied to environment values and to `--config` values. -/
def parse_env_value (value : LStr) : PyVal :=
  let lv := pyLower value
  if lv = "true".data ∨ lv = "yes".data ∨ lv = "1".data then .vbool true
  else if lv = "false".data ∨ lv = "no".data ∨ lv = "0".data then .vbool false
  else match pyInt value with
    | some n => .vint n
    | none =>
      if value.contains ',' then .vlist ((pySplit ',' value).map pyStrip)
      else .vstr value

/-- Model of `TemplateArgument` dataclass (the fields `build_context` reads are
`context_key` and `default`). -/
structure TemplateArgument where
  name : LStr
  argType : LStr
  help : LStr
  context_key : LStr
  default : Option PyVal
  choices : Option (List LStr)
  required : Bool
deriving DecidableEq, Repr

/-- Steps 1 and 2 of `build_context`: `context.update` of the defaults section
then of the custom section, each only when the section exists. -/
def applyConfigSections (defaults custom : Option Ctx) (ctx : Ctx) : Ctx :=
  let ctx := match defaults with | some d => dupdate ctx d | none => ctx
  match custom with | some d => dupdate ctx d | none => ctx

/-- Step 3, one environment variable: keys with the `GRADLE_INIT_` prefix
are stripped of the 12-character prefix, lower-cased, and assigned the
coerced value. -/
def envStep (c : Ctx) (kv : LStr × LStr) : Ctx :=
  if "GRADLE_INIT_".data.isPrefixOf kv.1 then
    dset c (pyLower (kv.1.drop 12)) (parse_env_value kv.2)
  else c

def applyEnv (env_vars : List (LStr × LStr)) (ctx : Ctx) : Ctx :=
  env_vars.foldl envStep ctx

/-- Step 4, one CLI argument: `None` values and the bookkeeping keys
`help`, `func`, `command`, `config` are skipped. -/
def cliStep (c : Ctx) (kv : LStr × Option PyVal) : Ctx :=
  match kv.2 with
  | none => c
  | some v =>
    if kv.1 = "help".data ∨ kv.1 = "func".data ∨ kv.1 = "command".data ∨
       kv.1 = "config".data then c
    else dset c kv.1 v

def applyCli (cli_args : List (LStr × Option PyVal)) (ctx : Ctx) : Ctx :=
  cli_args.foldl cliStep ctx

/-- Step 4a, one `--config KEY=VALUE` string: entries without `=` are
skipped; a dotted KEY is flattened with underscores; VALUE is coerced by
`parse_env_value`. -/
def cliConfigStep (c : Ctx) (s : LStr) : Ctx :=
  match pySplitOnce '=' s with
  | none => c
  | some (k, v) =>
    if k.contains '.' then
      dset c (k.map (fun ch => if ch = '.' then '_' else ch)) (parse_env_value v)
    else dset c k (parse_env_value v)

/-- Truthiness gate on the config entry of the CLI dict: the list
is processed only when present and non-empty. -/
def applyCliConfig (cli_config : Option (List LStr)) (ctx : Ctx) : Ctx :=
  match cli_config with
  | some l => if l.isEmpty then ctx else l.foldl cliConfigStep ctx
  | none => ctx

/-- Step 5: the computed keys, assigned unconditionally. -/
def applyComputed (timestamp date : LStr) (year : Int) (ctx : Ctx) : Ctx :=
  let ctx := dset ctx "timestamp".data (.vstr timestamp)
  let ctx := dset ctx "year".data (.vint year)
  dset ctx "date".data (.vstr date)

/-- Step 6, one template argument: only keys absent from the context get
the default of the argument, or `""` when it has none. -/
def targStep (c : Ctx) (a : TemplateArgument) : Ctx :=
  match dget c a.context_key with
  | some _ => c
  | none =>
    match a.default with
    | some d => dset c a.context_key d
    | none => dset c a.context_key (.vstr [])

def applyTemplateDefaults (template_args : List TemplateArgument) (ctx : Ctx) : Ctx :=
  template_args.foldl targStep ctx

/-- Model of `ContextBuilder.build_context`, the six steps in source order.
`defaults`/`custom` are the two sections of the persisted config
(`none` when the section key is absent); `cli_config` is
the config entry of the CLI dict (the repeatable `--config KEY=VALUE` strings);
`timestamp`, `year` and `date` stand for the values computed from
`datetime.now()`; `template_args` is the
`template_metadata.get_arguments()` result. -/
def build_context (defaults custom : Option Ctx)
    (env_vars : List (LStr × LStr)) (cli_args : List (LStr × Option PyVal))
    (cli_config : Option (List LStr)) (timestamp date : LStr) (year : Int)
    (template_args : List TemplateArgument) : Ctx :=
  applyTemplateDefaults template_args
    (applyComputed timestamp date year
      (applyCliConfig cli_config
        (applyCli cli_args
          (applyEnv env_vars
            (applyConfigSections defaults custom [])))))

/-! ## Compiled cache (`TemplateMetadata`) -/

/-- The filesystem facts `get_compiled_content` observes for one source
file: whether a cache dir is configured, whether
`source_file.relative_to(template_path)` succeeds, existence and mtimes
for the freshness check, the outcome of reading the cache file and the
source file (`none` = the exception the code catches), and whether the
cache write (with `mkdir -p`) succeeds.  The float mtimes are only ever
compared, so they are modelled as integers. -/
structure CacheView where
  cache_configured : Bool
  rel_ok : Bool
  cache_exists : Bool
  source_mtime : Int
  cache_mtime : Int
  cache_read : Option LStr
  source_read : Option LStr
  write_ok : Bool
deriving DecidableEq, Repr

/-- Model of `TemplateMetadata._is_cache_valid`: cache file exists and its mtime
is at least the source mtime. -/
def is_cache_valid (v : CacheView) : Bool :=
  v.cache_exists && (v.source_mtime ≤ v.cache_mtime)

/-- Result of `get_compiled_content`: the returned content, and the
content written to the cache file (`none` when nothing was written). -/
structure CompiledResult where
  content : LStr
  cache_written : Option LStr
deriving DecidableEq, Repr

/-- Model of `TemplateMetadata.get_compiled_content`. -/
def get_compiled_content (v : CacheView) : CompiledResult :=
  if v.cache_configured && v.rel_ok then
    if is_cache_valid v then
      match v.cache_read with
      | some c => ⟨c, none⟩
      | none =>
        let cc := compile_template v.source_read
        ⟨cc, if v.write_ok then some cc else none⟩
    else
      let cc := compile_template v.source_read
      ⟨cc, if v.write_ok then some cc else none⟩
  else ⟨compile_template v.source_read, none⟩

/-! ## Validators

The validators delegate pattern matching to Python `re`.  The mini
regex engine below models the fragment of `re` that the validation
patterns of template authors use: literal characters, `|` alternation, `(...)`
grouping, `.`, and the `^`/`$` anchors.  Parsing returns `none` for a
malformed pattern: `rxParse` returning `none` models `re.error`;
patterns using constructs outside this fragment are outside the intended
scope.  `re.match` semantics: the pattern must match some prefix of the
string starting at position 0; `^` asserts position 0, `$` asserts end
of string or a final newline. -/

inductive Rx where
  | eps : Rx
  | ch : Char → Rx
  | anyc : Rx
  | caret : Rx
  | dollar : Rx
  | seq : Rx → Rx → Rx
  | alt : Rx → Rx → Rx
deriving DecidableEq, Repr

mutual

/-- Parse an alternation (`a|b|...`), stopping at `)` or end. -/
def parseAltR : Nat → LStr → Option (Rx × LStr)
  | 0, _ => none
  | fuel + 1, s =>
    match parseSeqR fuel s with
    | none => none
    | some (r, rest) =>
      match rest with
      | '|' :: cs =>
        match parseAltR fuel cs with
        | some (r2, rest2) => some (.alt r r2, rest2)
        | none => none
      | _ => some (r, rest)

/-- Parse a concatenation of atoms, stopping at `|`, `)` or end;
unsupported metacharacters make the whole parse fail. -/
def parseSeqR : Nat → LStr → Option (Rx × LStr)
  | 0, _ => none
  | _ + 1, [] => some (.eps, [])
  | fuel + 1, c :: cs =>
    if c = '|' || c = ')' then some (.eps, c :: cs)
    else if c = '*' || c = '+' || c = '?' || c = '[' || c = ']' ||
            c = '\x7b' || c = '\x7d' || c = '\\' then none
    else if c = '(' then
      match parseAltR fuel cs with
      | some (g, ')' :: rest) =>
        match parseSeqR fuel rest with
        | some (r2, rest2) => some (.seq g r2, rest2)
        | none => none
      | _ => none
    else
      let atom : Rx :=
        if c = '^' then .caret
        else if c = '$' then .dollar
        else if c = '.' then .anyc
        else .ch c
      match parseSeqR fuel cs with
      | some (r2, rest2) => some (.seq atom r2, rest2)
      | none => none

end

/-- Model of `re.compile(pattern)`: `none` models `re.error`. -/
def rxParse (p : LStr) : Option Rx :=
  match parseAltR (2 * p.length + 2) p with
  | some (r, []) => some r
  | _ => none

/-- Backtracking acceptance: does `r` match some part of `s` starting at
position `p`, continuing with `k`? -/
def rxAccept : Rx → Nat → LStr → (Nat → LStr → Bool) → Bool
  | .eps, p, s, k => k p s
  | .ch c, p, s, k =>
    match s with
    | [] => false
    | x :: xs => x = c && k (p + 1) xs
  | .anyc, p, s, k =>
    match s with
    | [] => false
    | x :: xs => !(x = '\n') && k (p + 1) xs
  | .caret, p, s, k => p = 0 && k p s
  | .dollar, p, s, k => (s.isEmpty || s = ['\n']) && k p s
  | .seq a b, p, s, k => rxAccept a p s (fun p2 s2 => rxAccept b p2 s2 k)
  | .alt a b, p, s, k => rxAccept a p s k || rxAccept b p s k

/-- Model of `re.match(pattern, value)` as a boolean: `none` models `re.error`
raised by compilation. -/
def pyReMatchB (pat value : LStr) : Option Bool :=
  (rxParse pat).map (fun r => rxAccept r 0 value (fun _ _ => true))

/-- Modelled from the spec: "value (as string) must fully match
`^pattern$`", i.e. the whole value is consumed by the pattern. -/
def specFullMatch (p value : LStr) : Option Bool :=
  (rxParse p).map (fun r => rxAccept r 0 value (fun _ s => s.isEmpty))

/-- The error message built by `validate_value_against_hint`, carrying
the value, the pattern, and (when nonempty) the help of the descriptor. -/
def valErrMsg (value p help : LStr) : LStr :=
  "Value \x27".data ++ value ++ "\x27 does not match pattern: ".data ++ p ++
  (if help.isEmpty then [] else "\n  Help: ".data ++ help)

/-- Model of `validate_value_against_hint`: no pattern (or the empty, falsy
pattern) is no constraint; `re.error` is downgraded to a warning and the
value accepted; otherwise `re.match("^" + pattern + "$", value)`
decides. -/
def validate_value_against_hint (value : LStr) (hint : TemplateVariable) :
    Bool × Option LStr :=
  match hint.regex_pattern with
  | none => (true, none)
  | some p =>
    if p.isEmpty then (true, none)
    else match pyReMatchB ('^' :: (p ++ ['$'])) value with
      | none => (true, none)
      | some true => (true, none)
      | some false => (false, some (valErrMsg value p hint.help_text))

/-- Model of `TemplateVariable.validate`: same matching, but `re.error` yields a
rejection `(False, "Invalid regex pattern: ...")` (the exception detail
in the message is elided). -/
def TemplateVariable.validate (v : TemplateVariable) (value : LStr) : Bool × LStr :=
  match v.regex_pattern with
  | none => (true, [])
  | some p =>
    if p.isEmpty then (true, [])
    else match pyReMatchB ('^' :: (p ++ ['$'])) value with
      | none => (false, "Invalid regex pattern: ".data)
      | some true => (true, [])
      | some false =>
        (false, "Value \x27".data ++ value ++ "\x27 does not match pattern: ".data ++ p)

/-! ### Length bookkeeping for the matcher -/

theorem eatLit_le (p : LStr) : ∀ s r, eatLit p s = some r → r.length ≤ s.length := by
  induction p with
  | nil =>
    intro s r h
    simp only [eatLit, Option.some.injEq] at h
    subst h
    exact le_refl _
  | cons a as ih =>
    intro s r h
    cases s with
    | nil => simp [eatLit] at h
    | cons c cs =>
      simp only [eatLit] at h
      by_cases hc : c = a
      · rw [if_pos hc] at h
        exact (ih cs r h).trans (Nat.le_succ _)
      · rw [if_neg hc] at h
        exact Option.noConfusion h

theorem spanP_snd_le (p : Char → Bool) : ∀ s, (spanP p s).2.length ≤ s.length := by
  intro s
  induction s with
  | nil => simp [spanP]
  | cons c cs ih =>
    simp only [spanP]
    by_cases h : p c = true
    · simp only [if_pos h]
      exact ih.trans (Nat.le_succ _)
    · simp only [if_neg h]
      exact le_refl _

theorem sortGroup_le (s ds r : LStr) (h : sortGroup s = some (ds, r)) :
    r.length ≤ s.length := by
  simp only [sortGroup] at h
  split at h
  · exact Option.noConfusion h
  · cases he : eatLit ['|'] (spanP isDigitC s).2 with
    | none => simp only [he] at h; exact Option.noConfusion h
    | some r2 =>
      simp only [he, Option.some.injEq, Prod.mk.injEq] at h
      obtain ⟨h1, h2⟩ := h
      subst h2
      exact (eatLit_le _ _ _ he).trans (spanP_snd_le _ _)

theorem parenGroup_le (s p r : LStr) (h : parenGroup s = some (p, r)) :
    r.length ≤ s.length := by
  simp only [parenGroup] at h
  cases h1 : eatLit ['('] s with
  | none => simp only [h1] at h; exact Option.noConfusion h
  | some r1 =>
    simp only [h1] at h
    split at h
    · exact Option.noConfusion h
    · split at h
      · exact Option.noConfusion h
      · rename_i r2 h2
        simp only [Option.some.injEq, Prod.mk.injEq] at h
        obtain ⟨_, hr⟩ := h
        subst hr
        exact ((eatLit_le _ _ _ h2).trans (spanP_snd_le _ _)).trans (eatLit_le _ _ _ h1)

theorem enhTail_le (s h n r : LStr) (hm : enhTail s = some (h, n, r)) :
    r.length ≤ s.length := by
  simp only [enhTail] at hm
  split at hm
  · exact Option.noConfusion hm
  · cases h2 : eatLit ['@', '@'] (spanP (fun c => !(c = '@')) s).2 with
    | none => simp only [h2] at hm; exact Option.noConfusion hm
    | some r2 =>
      simp only [h2] at hm
      cases r2 with
      | nil => exact Option.noConfusion hm
      | cons c cs =>
        simp only at hm
        by_cases hc : isIdentStart c = true
        · rw [if_pos hc] at hm
          split at hm
          · exact Option.noConfusion hm
          · rename_i rest h3
            simp only [Option.some.injEq, Prod.mk.injEq] at hm
            obtain ⟨_, _, hr⟩ := hm
            subst hr
            have s1 : rest.length ≤ (c :: cs).length := by
              have t1 := (eatLit_le _ _ _ h3).trans (spanP_snd_le pyWhite _)
              have t2 := t1.trans (spanP_snd_le isIdentChar cs)
              exact t2.trans (Nat.le_succ _)
            exact (s1.trans ((eatLit_le _ _ _ h2).trans (spanP_snd_le _ _)))
        · rw [if_neg hc] at hm
          exact Option.noConfusion hm

theorem enhBodyNoSort_le (s : LStr) (m : EnhMatch) (r : LStr)
    (h : enhBodyNoSort s = some (m, r)) : r.length ≤ s.length := by
  simp only [enhBodyNoSort] at h
  split at h
  · rename_i p r1 hp
    split at h
    · rename_i ht
      simp only [Option.some.injEq, Prod.mk.injEq] at h
      obtain ⟨_, hr⟩ := h
      subst hr
      exact (enhTail_le _ _ _ _ ht).trans (parenGroup_le _ _ _ hp)
    · split at h
      · rename_i ht
        simp only [Option.some.injEq, Prod.mk.injEq] at h
        obtain ⟨_, hr⟩ := h
        subst hr
        exact enhTail_le _ _ _ _ ht
      · exact Option.noConfusion h
  · split at h
    · rename_i ht
      simp only [Option.some.injEq, Prod.mk.injEq] at h
      obtain ⟨_, hr⟩ := h
      subst hr
      exact enhTail_le _ _ _ _ ht
    · exact Option.noConfusion h

theorem enhBodyWithSort_le (ds r1 : LStr) (m : EnhMatch) (r : LStr)
    (h : enhBodyWithSort ds r1 = some (m, r)) : r.length ≤ r1.length := by
  simp only [enhBodyWithSort] at h
  split at h
  · rename_i p r2 hp
    split at h
    · rename_i ht
      simp only [Option.some.injEq, Prod.mk.injEq] at h
      obtain ⟨_, hr⟩ := h
      subst hr
      exact (enhTail_le _ _ _ _ ht).trans (parenGroup_le _ _ _ hp)
    · split at h
      · rename_i ht
        simp only [Option.some.injEq, Prod.mk.injEq] at h
        obtain ⟨_, hr⟩ := h
        subst hr
        exact enhTail_le _ _ _ _ ht
      · exact Option.noConfusion h
  · split at h
    · rename_i ht
      simp only [Option.some.injEq, Prod.mk.injEq] at h
      obtain ⟨_, hr⟩ := h
      subst hr
      exact enhTail_le _ _ _ _ ht
    · exact Option.noConfusion h

theorem enhBody_le (s : LStr) (m : EnhMatch) (r : LStr)
    (h : enhBody s = some (m, r)) : r.length ≤ s.length := by
  simp only [enhBody] at h
  split at h
  · rename_i ds r1 hs
    split at h
    · rename_i m' h'
      cases h
      exact (enhBodyWithSort_le _ _ _ _ h').trans (sortGroup_le _ _ _ hs)
    · exact enhBodyNoSort_le _ _ _ h
  · exact enhBodyNoSort_le _ _ _ h

theorem matchEnhancedAt_lt (s : LStr) (m : EnhMatch) (r : LStr)
    (h : matchEnhancedAt s = some (m, r)) : r.length < s.length := by
  simp only [matchEnhancedAt] at h
  cases h1 : eatLit ['\x7b', '\x7b'] s with
  | none => simp only [h1] at h; exact Option.noConfusion h
  | some r1 =>
    simp only [h1] at h
    cases h2 : eatLit ['@', '@'] (spanP pyWhite r1).2 with
    | none => simp only [h2] at h; exact Option.noConfusion h
    | some r2 =>
      simp only [h2] at h
      have hr2 : r2.length ≤ r1.length :=
        (eatLit_le _ _ _ h2).trans (spanP_snd_le _ _)
      have hb := enhBody_le _ _ _ h
      have hlt : r1.length < s.length := by
        cases s with
        | nil => simp [eatLit] at h1
        | cons a as =>
          cases as with
          | nil =>
            simp only [eatLit] at h1
            split at h1 <;> simp_all [eatLit]
          | cons b bs =>
            simp only [eatLit] at h1
            split at h1
            · split at h1
              · simp only [Option.some.injEq] at h1
                subst h1
                simp only [List.length_cons]
                omega
              · exact absurd h1 (by simp)
            · exact absurd h1 (by simp)
      omega

theorem matchEnhancedAt_nil : matchEnhancedAt [] = none := rfl

theorem subEnhGo_nil (f : Nat) : subEnhGo f [] = [] := by
  cases f <;> rfl

/-- Fuel irrelevance for the `re.sub` scan: any fuel at least the input
length computes the same result. -/
theorem subEnhGo_congr : ∀ f g s, s.length ≤ f → s.length ≤ g →
    subEnhGo f s = subEnhGo g s := by
  intro f
  induction f with
  | zero =>
    intro g s hf _
    have : s = [] := List.length_eq_zero.mp (Nat.le_zero.mp hf)
    subst this
    rw [subEnhGo_nil, subEnhGo_nil]
  | succ f ih =>
    intro g s hf hg
    cases s with
    | nil => rw [subEnhGo_nil, subEnhGo_nil]
    | cons c cs =>
      cases g with
      | zero => simp at hg
      | succ g =>
        simp only [subEnhGo]
        cases hm : matchEnhancedAt (c :: cs) with
        | some pr =>
          obtain ⟨m, rest⟩ := pr
          have hlt := matchEnhancedAt_lt _ _ _ hm
          simp only [hm]
          simp only [List.length_cons] at hf hg hlt
          rw [ih g rest (by omega) (by omega)]
        | none =>
          simp only [hm]
          simp only [List.length_cons] at hf hg
          rw [ih g cs (by omega) (by omega)]

/-- If `ENHANCED_PATTERN` matches nowhere, the substitution scan is the
identity. -/
theorem subEnhGo_id (f : Nat) : ∀ s, hasEnhMatch s = false → subEnhGo f s = s := by
  induction f with
  | zero => intro s _; rfl
  | succ f ih =>
    intro s h
    cases s with
    | nil => rfl
    | cons c cs =>
      simp only [hasEnhMatch, Bool.or_eq_false_iff] at h
      obtain ⟨h1, h2⟩ := h
      have hm : matchEnhancedAt (c :: cs) = none := by
        cases hx : matchEnhancedAt (c :: cs) with
        | none => rfl
        | some v => rw [hx] at h1; simp at h1
      simp only [subEnhGo, hm]
      rw [ih cs h2]

theorem subEnhanced_id (s : LStr) (h : hasEnhMatch s = false) : subEnhanced s = s :=
  subEnhGo_id s.length s h


/-! ## Helper lemmas for dicts, registries and prefixes -/

theorem dget_dset_self (d : Ctx) (k : LStr) (v : PyVal) :
    dget (dset d k v) k = some v := by
  induction d with
  | nil => simp [dset, dget]
  | cons kv rest ih =>
    obtain ⟨k', w⟩ := kv
    simp only [dset]
    by_cases h : k' = k
    · simp [dget, h]
    · simp only [if_neg h, dget, ih]

theorem dget_dset_ne (d : Ctx) (k k' : LStr) (v : PyVal) (h : k' ≠ k) :
    dget (dset d k' v) k = dget d k := by
  induction d with
  | nil => simp [dset, dget, h]
  | cons kv rest ih =>
    obtain ⟨k0, w⟩ := kv
    simp only [dset]
    by_cases h0 : k0 = k'
    · subst h0
      simp [dget, h]
    · simp only [if_neg h0, dget, ih]

theorem isPrefixOf_append_self (p t : LStr) : p.isPrefixOf (p ++ t) = true := by
  induction p with
  | nil => simp [List.isPrefixOf]
  | cons a as ih => simp [List.isPrefixOf, ih]

theorem drop_append_self (p t : LStr) : (p ++ t).drop p.length = t := by
  induction p with
  | nil => rfl
  | cons a as ih =>
    simp only [List.append_eq, List.length_cons, List.drop_succ_cons]
    simp [ih]

theorem gradle_drop (K : LStr) : ("GRADLE_INIT_".data ++ K).drop 12 = K := by
  have h := drop_append_self "GRADLE_INIT_".data K
  rwa [show ("GRADLE_INIT_".data.length) = 12 from rfl] at h

theorem regLookup_regReplace (reg : Registry) (n : LStr) (v w : TemplateVariable)
    (h : regLookup reg n = some v) :
    regLookup (regReplace reg n w) n = some w := by
  induction reg with
  | nil => simp [regLookup] at h
  | cons kv rest ih =>
    obtain ⟨k, u⟩ := kv
    simp only [regLookup, regReplace] at h ⊢
    by_cases hk : k = n
    · simp [hk, regLookup]
    · simp only [if_neg hk] at h ⊢
      simp only [regLookup, if_neg hk]
      exact ih h

/-! ## Claim theorems -/

/-- C3, counterexample: the input `x@@y` contains no enhanced
placeholder, so `compile` returns it unchanged and the output still
contains the substring `@@` — refuting "the output of compile(T)
contains no occurrence of the substring @@". -/
theorem C3_counterexample :
    subEnhanced "x@@y".data = "x@@y".data ∧
    hasSub "@@".data (subEnhanced "x@@y".data) = true := by
  constructor <;> decide

/-- C3 (amended): every enhanced-placeholder match (in the leftmost,
non-overlapping scan order of `re.sub`) is replaced by exactly
`{{ name }}`, and characters not starting a match are copied unchanged;
`@@` occurrences outside any match survive in the output. -/
theorem C3_amended (s : LStr) :
    (∀ m rest, matchEnhancedAt s = some (m, rest) →
      subEnhanced s = subEnhRepl m.varName ++ subEnhanced rest) ∧
    (∀ c cs, s = c :: cs → matchEnhancedAt s = none →
      subEnhanced s = c :: subEnhanced cs) := by
  constructor
  · intro m rest hm
    cases s with
    | nil => rw [matchEnhancedAt_nil] at hm; exact Option.noConfusion hm
    | cons c cs =>
      have hlt := matchEnhancedAt_lt _ _ _ hm
      show subEnhGo (c :: cs).length (c :: cs) = _
      simp only [List.length_cons, subEnhGo, hm]
      have : subEnhGo cs.length rest = subEnhGo rest.length rest := by
        apply subEnhGo_congr
        · simp only [List.length_cons] at hlt; omega
        · exact le_refl _
      rw [this]
      rfl
  · intro c cs hs hm
    subst hs
    show subEnhGo (c :: cs).length (c :: cs) = _
    simp only [List.length_cons, subEnhGo, hm]
    rfl

/-- Witness for C3 (amended): a concrete enhanced placeholder followed by
a tail is compiled to `{{ x }}` plus the compiled tail, and a concrete
non-match head is copied unchanged. -/
theorem C3_amended_witness :
    subEnhanced "\x7b\x7b @@h@@x \x7d\x7d!".data =
      subEnhRepl "x".data ++ subEnhanced "!".data ∧
    subEnhanced "a\x7b\x7b b \x7d\x7d".data = 'a' :: subEnhanced "\x7b\x7b b \x7d\x7d".data := by
  constructor
  · exact (C3_amended "\x7b\x7b @@h@@x \x7d\x7d!".data).1 ⟨none, none, "h".data, "x".data⟩
      "!".data (by decide)
  · exact (C3_amended "a\x7b\x7b b \x7d\x7d".data).2 'a' "\x7b\x7b b \x7d\x7d".data rfl (by decide)

/-- C4, counterexample: replacing an inner enhanced placeholder can
create a new enhanced placeholder, so `compile` is not a fixed point
under repeated application: for
`T = {{ @@ {{ @@A@@b }} @@c }}`, `compile(T) = {{ @@ {{ b }} @@c }}`
but `compile(compile(T)) = {{ c }}`. -/
theorem C4_counterexample :
    subEnhanced "\x7b\x7b @@ \x7b\x7b @@A@@b \x7d\x7d @@c \x7d\x7d".data =
      "\x7b\x7b @@ \x7b\x7b b \x7d\x7d @@c \x7d\x7d".data ∧
    subEnhanced (subEnhanced "\x7b\x7b @@ \x7b\x7b @@A@@b \x7d\x7d @@c \x7d\x7d".data) =
      "\x7b\x7b c \x7d\x7d".data ∧
    subEnhanced (subEnhanced "\x7b\x7b @@ \x7b\x7b @@A@@b \x7d\x7d @@c \x7d\x7d".data) ≠
      subEnhanced "\x7b\x7b @@ \x7b\x7b @@A@@b \x7d\x7d @@c \x7d\x7d".data := by
  refine ⟨by decide, by decide, by decide⟩

/-- C4 (amended): compiling content in which no enhanced placeholder
matches returns it unchanged, and compilation is a fixed point whenever
the compiled output contains no enhanced match (replacement can expose
new matches, so this does not hold for arbitrary input). -/
theorem C4_amended (T : LStr) :
    (hasEnhMatch T = false → subEnhanced T = T) ∧
    (hasEnhMatch (subEnhanced T) = false →
      subEnhanced (subEnhanced T) = subEnhanced T) := by
  exact ⟨subEnhanced_id T, subEnhanced_id (subEnhanced T)⟩

/-- Witness for C4 (amended) at already-compiled content. -/
theorem C4_amended_witness :
    subEnhanced "name=\x7b\x7b project \x7d\x7d".data = "name=\x7b\x7b project \x7d\x7d".data ∧
    subEnhanced (subEnhanced "version=\x7b\x7b @@01|(0|1)|Flag=0@@flag \x7d\x7d".data) =
      subEnhanced "version=\x7b\x7b @@01|(0|1)|Flag=0@@flag \x7d\x7d".data := by
  constructor
  · exact (C4_amended "name=\x7b\x7b project \x7d\x7d".data).1 (by decide)
  · exact (C4_amended "version=\x7b\x7b @@01|(0|1)|Flag=0@@flag \x7d\x7d".data).2 (by decide)

/-- C8: the two-line scenario.  Compiling
`version={{ @@01|(0|1)|Flag=0@@flag }}\nname={{ project }}` yields
`version={{ flag }}\nname={{ project }}`, and parsing it yields the
descriptor `flag` (sort 1, pattern `0|1`, help `Flag`, default `0`,
enhanced, located at line 1) followed by the descriptor `project`
(sort 999, not enhanced, located at line 2). -/
theorem C8_scenario :
    subEnhanced "version=\x7b\x7b @@01|(0|1)|Flag=0@@flag \x7d\x7d\nname=\x7b\x7b project \x7d\x7d".data =
      "version=\x7b\x7b flag \x7d\x7d\nname=\x7b\x7b project \x7d\x7d".data ∧
    parse_file "f".data
      (some "version=\x7b\x7b @@01|(0|1)|Flag=0@@flag \x7d\x7d\nname=\x7b\x7b project \x7d\x7d".data) [] =
      [("flag".data,
        ⟨"flag".data, "Flag".data, 1, some "0|1".data, some "0".data,
         [("f".data, 1)], true⟩),
       ("project".data,
        ⟨"project".data, [], 999, none, none, [("f".data, 2)], false⟩)] := by
  constructor <;> decide



/-- Cache hit: configured, valid and readable. -/
theorem get_compiled_hit (v : CacheView) (c : LStr)
    (hc : v.cache_configured = true) (hr : v.rel_ok = true)
    (hv : is_cache_valid v = true) (hcr : v.cache_read = some c) :
    get_compiled_content v = ⟨c, none⟩ := by
  simp [get_compiled_content, hc, hr, hv, hcr]

/-- Recompute path: configured but the cache is invalid or unreadable. -/
theorem get_compiled_recompute (v : CacheView)
    (hc : v.cache_configured = true) (hr : v.rel_ok = true)
    (hcase : is_cache_valid v = false ∨ v.cache_read = none) :
    get_compiled_content v =
      ⟨compile_template v.source_read,
       if v.write_ok then some (compile_template v.source_read) else none⟩ := by
  rcases hcase with hv | hcr
  · simp [get_compiled_content, hc, hr, hv]
  · cases hv : is_cache_valid v
    · simp [get_compiled_content, hc, hr, hv]
    · simp [get_compiled_content, hc, hr, hv, hcr]

/-- C2, counterexample: the pattern `(` does not compile as a regex
(nor does the wrapped `^($`), yet `TemplateVariable.validate` rejects
the value with an "Invalid regex pattern" error instead of treating the
pattern as no constraint. -/
theorem C2_counterexample :
    rxParse "(".data = none ∧
    rxParse ('^' :: ("(".data ++ ['$'])) = none ∧
    TemplateVariable.validate
      ⟨"x".data, [], 999, some "(".data, none, [], true⟩ "value".data =
      (false, "Invalid regex pattern: ".data) := by
  refine ⟨by decide, by decide, by decide⟩

/-- C2 (amended): for a pattern whose wrapped form `^pattern$` fails to
compile, `validate_value_against_hint` treats it as no constraint and
accepts every value (with a warning), while `TemplateVariable.validate`
rejects the value. -/
theorem C2_amended (value : LStr) (hint : TemplateVariable) (p : LStr)
    (hp : hint.regex_pattern = some p)
    (hbad : rxParse ('^' :: (p ++ ['$'])) = none) :
    validate_value_against_hint value hint = (true, none) ∧
    (TemplateVariable.validate hint value).1 = false := by
  have hne : p.isEmpty = false := by
    cases p with
    | nil => exact absurd hbad (by decide)
    | cons c cs => rfl
  have hm : pyReMatchB ('^' :: (p ++ ['$'])) value = none := by
    simp [pyReMatchB, hbad]
  constructor
  · simp [validate_value_against_hint, hp, hne, hm]
  · simp [TemplateVariable.validate, hp, hne, hm]

/-- Witness for C2 (amended) at the malformed pattern `(`. -/
theorem C2_amended_witness :
    validate_value_against_hint "x".data
      ⟨"v".data, [], 999, some "(".data, none, [], true⟩ = (true, none) ∧
    (TemplateVariable.validate
      ⟨"v".data, [], 999, some "(".data, none, [], true⟩ "x".data).1 = false :=
  C2_amended "x".data ⟨"v".data, [], 999, some "(".data, none, [], true⟩
    "(".data rfl (by decide)

/-- C5, counterexample: the code matches with `re.match("^" + p + "$")`,
whose alternation is not grouped, so for pattern `11|17|21` the value
`"170"` is accepted although it does not fully match the pattern —
refuting "accepts iff the entire value matches". -/
theorem C5_counterexample :
    validate_value_against_hint "170".data
      ⟨"jdk_version".data, "JDK version".data, 1, some "11|17|21".data,
       none, [], true⟩ = (true, none) ∧
    specFullMatch "11|17|21".data "170".data = some false := by
  refine ⟨by decide, by decide⟩

/-- C5 (amended): for a descriptor with a well-formed nonempty pattern
`p`, validation accepts a value iff `re.match("^" + p + "$", value)`
finds a match — an anchored-prefix semantics in which an un-grouped
alternation can accept values that are not full matches — and on
failure the error carries the value, the pattern and the help text of
the descriptor. -/
theorem C5_amended (value : LStr) (hint : TemplateVariable) (p : LStr)
    (hp : hint.regex_pattern = some p) (hne : p ≠ [])
    (hok : rxParse ('^' :: (p ++ ['$'])) ≠ none) :
    ((validate_value_against_hint value hint).1 = true ↔
      pyReMatchB ('^' :: (p ++ ['$'])) value = some true) ∧
    (pyReMatchB ('^' :: (p ++ ['$'])) value = some false →
      validate_value_against_hint value hint =
        (false, some (valErrMsg value p hint.help_text))) := by
  have hne' : p.isEmpty = false := by
    cases p with
    | nil => exact absurd rfl hne
    | cons c cs => rfl
  cases hrx : rxParse ('^' :: (p ++ ['$'])) with
  | none => exact absurd hrx hok
  | some r =>
    have hm : pyReMatchB ('^' :: (p ++ ['$'])) value =
        some (rxAccept r 0 value (fun _ _ => true)) := by
      simp [pyReMatchB, hrx]
    cases hacc : rxAccept r 0 value (fun _ _ => true) with
    | true =>
      rw [hacc] at hm
      constructor
      · simp [validate_value_against_hint, hp, hne', hm]
      · intro hfalse
        rw [hm] at hfalse
        exact absurd hfalse (by simp)
    | false =>
      rw [hacc] at hm
      constructor
      · simp [validate_value_against_hint, hp, hne', hm]
      · intro _
        simp [validate_value_against_hint, hp, hne', hm]

/-- Witness for C5 (amended): pattern `11|17|21` accepts `"17"` and
rejects `"8"` with an error naming the value, the pattern and the
help text of the descriptor. -/
theorem C5_amended_witness :
    ((validate_value_against_hint "17".data
        ⟨"jdk_version".data, "JDK version".data, 1, some "11|17|21".data,
         none, [], true⟩).1 = true) ∧
    validate_value_against_hint "8".data
      ⟨"jdk_version".data, "JDK version".data, 1, some "11|17|21".data,
       none, [], true⟩ =
      (false, some (valErrMsg "8".data "11|17|21".data "JDK version".data)) := by
  constructor
  · exact (C5_amended "17".data
      ⟨"jdk_version".data, "JDK version".data, 1, some "11|17|21".data,
       none, [], true⟩ "11|17|21".data rfl (by decide) (by decide)).1.mpr (by decide)
  · exact (C5_amended "8".data
      ⟨"jdk_version".data, "JDK version".data, 1, some "11|17|21".data,
       none, [], true⟩ "11|17|21".data rfl (by decide) (by decide)).2 (by decide)

/-- C6: with a cache root configured (and the source inside the template
tree so a cache path exists), `get_compiled_content` returns the cached
content exactly in the valid-and-readable case; in every other case
(missing, stale or unreadable cache) it recompiles from source and
returns the compiled content, writing it to the cache when the write
succeeds and still returning it when the write fails. -/
theorem C6_cache (v : CacheView)
    (hc : v.cache_configured = true) (hr : v.rel_ok = true) :
    (∀ c, is_cache_valid v = true → v.cache_read = some c →
      get_compiled_content v = ⟨c, none⟩) ∧
    ((is_cache_valid v = false ∨ v.cache_read = none) →
      (get_compiled_content v).content = compile_template v.source_read ∧
      (get_compiled_content v).cache_written =
        (if v.write_ok then some (compile_template v.source_read) else none)) := by
  constructor
  · intro c hv hcr
    exact get_compiled_hit v c hc hr hv hcr
  · intro hcase
    rw [get_compiled_recompute v hc hr hcase]
    exact ⟨rfl, rfl⟩

/-- Witness for C6: a fresh readable cache is returned verbatim; a stale
cache triggers recompilation and a successful write. -/
theorem C6_cache_witness :
    get_compiled_content
      ⟨true, true, true, 5, 7, some "CACHED".data, some "\x7b\x7b x \x7d\x7d".data, true⟩ =
      ⟨"CACHED".data, none⟩ ∧
    (get_compiled_content
      ⟨true, true, true, 9, 7, some "OLD".data, some "\x7b\x7b @@h@@x \x7d\x7d".data, true⟩).content =
      compile_template (some "\x7b\x7b @@h@@x \x7d\x7d".data) ∧
    (get_compiled_content
      ⟨true, true, true, 9, 7, some "OLD".data, some "\x7b\x7b @@h@@x \x7d\x7d".data, true⟩).cache_written =
      some (compile_template (some "\x7b\x7b @@h@@x \x7d\x7d".data)) := by
  refine ⟨?_, ?_, ?_⟩
  · exact (C6_cache
      ⟨true, true, true, 5, 7, some "CACHED".data, some "\x7b\x7b x \x7d\x7d".data, true⟩
      rfl rfl).1 "CACHED".data (by decide) rfl
  · exact ((C6_cache
      ⟨true, true, true, 9, 7, some "OLD".data, some "\x7b\x7b @@h@@x \x7d\x7d".data, true⟩
      rfl rfl).2 (Or.inl (by decide))).1
  · have h := ((C6_cache
      ⟨true, true, true, 9, 7, some "OLD".data, some "\x7b\x7b @@h@@x \x7d\x7d".data, true⟩
      rfl rfl).2 (Or.inl (by decide))).2
    simpa using h

/-- C7, counterexample: in `{{ @@h@@x }}` (line 1) followed by
`{{ x }}` (line 2), the plain occurrence of `x` on line 2 is skipped
entirely because `x` is already enhanced, so its location is not
appended — refuting "every occurrence appends its location". -/
theorem C7_counterexample :
    plainMatches "\x7b\x7b x \x7d\x7d".data = ["x".data] ∧
    (regLookup (parse_file "f".data (some "\x7b\x7b @@h@@x \x7d\x7d\n\x7b\x7b x \x7d\x7d".data) [])
        "x".data).map TemplateVariable.locations = some [("f".data, 1)] := by
  refine ⟨by decide, by decide⟩

/-- C7 (amended): every occurrence that reaches `_add_variable` (all
enhanced occurrences, and plain occurrences of names not currently
enhanced) appends its location, and the enhanced flag is monotone (a
plain occurrence never downgrades); but a plain occurrence of an
already-enhanced name is skipped entirely, leaving the registry
unchanged. -/
theorem C7_amended :
    (∀ (reg : Registry) (n ht : LStr) (so : Int) (pat dflt : Option LStr)
        (fp : LStr) (ln : Nat) (e : Bool) (v : TemplateVariable),
        regLookup reg n = some v →
        ∃ w, regLookup (add_variable reg n ht so pat dflt fp ln e) n = some w ∧
          w.locations = v.locations ++ [(fp, ln)] ∧
          w.is_enhanced = (v.is_enhanced || e)) ∧
    (∀ (reg : Registry) (fp : LStr) (ln : Nat) (n : LStr) (v : TemplateVariable),
        regLookup reg n = some v → v.is_enhanced = true →
        processPlainMatch fp ln reg n = reg) := by
  constructor
  · intro reg n ht so pat dflt fp ln e v h
    simp only [add_variable, h]
    cases hb : v.is_enhanced <;> cases e <;>
      exact ⟨_, regLookup_regReplace _ _ _ _ h, by simp [hb], by simp [hb]⟩
  · intro reg fp ln n v h he
    simp [processPlainMatch, h, he]

/-- Witness for C7 (amended): an enhanced re-occurrence of `x` appends
its location and keeps the flag; a plain occurrence of the enhanced `x`
leaves the registry untouched. -/
theorem C7_amended_witness :
    (∃ w, regLookup
        (add_variable
          [("x".data, ⟨"x".data, "h".data, 1, none, none, [("f".data, 1)], true⟩)]
          "x".data "h2".data 2 none none "g".data 3 true)
        "x".data = some w ∧
      w.locations = [("f".data, 1)] ++ [("g".data, 3)] ∧
      w.is_enhanced = (true || true)) ∧
    processPlainMatch "g".data 3
      [("x".data, ⟨"x".data, "h".data, 1, none, none, [("f".data, 1)], true⟩)]
      "x".data =
      [("x".data, ⟨"x".data, "h".data, 1, none, none, [("f".data, 1)], true⟩)] := by
  constructor
  · exact C7_amended.1 _ "x".data "h2".data 2 none none "g".data 3 true
      ⟨"x".data, "h".data, 1, none, none, [("f".data, 1)], true⟩ (by decide)
  · exact C7_amended.2 _ "g".data 3 "x".data
      ⟨"x".data, "h".data, 1, none, none, [("f".data, 1)], true⟩ (by decide) rfl

/-- C10, counterexample: when the source file is unreadable but a valid
readable cache entry exists (e.g. the source lost read permission
without being modified), `get_compiled_content` returns the cached
content, not the empty string — refuting "get_compiled returns the
empty string for such a file". -/
theorem C10_counterexample :
    get_compiled_content ⟨true, true, true, 5, 7, some "X".data, none, true⟩ =
      ⟨"X".data, none⟩ ∧
    "X".data ≠ ([] : LStr) := by
  refine ⟨by decide, by decide⟩

/-- C10 (amended): for an unreadable source file `compile_template`
returns the empty string rather than raising; consequently, whenever
`get_compiled_content` takes the recompile path (cache missing, stale or
unreadable), it returns the empty string, and with a cache root
configured and a succeeding write it caches the empty string. -/
theorem C10_amended (v : CacheView) (hs : v.source_read = none) :
    compile_template v.source_read = [] ∧
    (v.cache_configured = true → v.rel_ok = true →
      (is_cache_valid v = false ∨ v.cache_read = none) →
      (get_compiled_content v).content = [] ∧
      (v.write_ok = true → (get_compiled_content v).cache_written = some [])) := by
  have hcomp : compile_template v.source_read = [] := by
    rw [hs]; rfl
  refine ⟨hcomp, ?_⟩
  intro hc hr hcase
  rw [get_compiled_recompute v hc hr hcase]
  constructor
  · exact hcomp
  · intro hw
    simp [hw, hcomp]

/-- Witness for C10 (amended): unreadable source, missing cache,
succeeding write. -/
theorem C10_amended_witness :
    (get_compiled_content ⟨true, true, false, 5, 0, none, none, true⟩).content =
      [] ∧
    (get_compiled_content ⟨true, true, false, 5, 0, none, none, true⟩).cache_written =
      some [] := by
  have h := C10_amended ⟨true, true, false, 5, 0, none, none, true⟩ rfl
  exact ⟨(h.2 rfl rfl (Or.inl (by decide))).1, (h.2 rfl rfl (Or.inl (by decide))).2 rfl⟩



/-! ## Stage lemmas for `build_context` -/

theorem envStep_gradle (c : Ctx) (K raw : LStr) :
    envStep c ("GRADLE_INIT_".data ++ K, raw) =
      dset c (pyLower K) (parse_env_value raw) := by
  simp [envStep, isPrefixOf_append_self, gradle_drop]

theorem cliStep_set (c : Ctx) (k : LStr) (v : PyVal)
    (hh : k ≠ "help".data) (hf : k ≠ "func".data)
    (hcm : k ≠ "command".data) (hcf : k ≠ "config".data) :
    cliStep c (k, some v) = dset c k v := by
  simp [cliStep, hh, hf, hcm, hcf]

theorem dget_applyComputed (ctx : Ctx) (ts dt : LStr) (yr : Int) (k : LStr)
    (h1 : k ≠ "timestamp".data) (h2 : k ≠ "year".data) (h3 : k ≠ "date".data) :
    dget (applyComputed ts dt yr ctx) k = dget ctx k := by
  simp only [applyComputed]
  rw [dget_dset_ne _ _ _ _ (Ne.symm h3), dget_dset_ne _ _ _ _ (Ne.symm h2),
    dget_dset_ne _ _ _ _ (Ne.symm h1)]

theorem targStep_present (c : Ctx) (a : TemplateArgument) (u : PyVal)
    (h : dget c a.context_key = some u) : targStep c a = c := by
  simp [targStep, h]

theorem targStep_absent (c : Ctx) (a : TemplateArgument)
    (h : dget c a.context_key = none) :
    targStep c a =
      (match a.default with
       | some d => dset c a.context_key d
       | none => dset c a.context_key (.vstr [])) := by
  simp only [targStep, h]

/-- C1, counterexample: for a key present in both config sections with
neither CLI nor environment supplying it, `build_context` returns the
value of the "custom" section, not the value of the "defaults" section —
`context.update(custom)` runs after `context.update(defaults)` and
overwrites it. -/
theorem C1_counterexample :
    dget (build_context (some [("g".data, .vstr "fromDefaults".data)])
        (some [("g".data, .vstr "fromCustom".data)]) [] [] none [] [] 2026 [])
        "g".data = some (.vstr "fromCustom".data) ∧
    (some (PyVal.vstr "fromCustom".data) ≠ some (PyVal.vstr "fromDefaults".data)) := by
  refine ⟨by decide, by decide⟩

/-- C1 (amended): the precedence law with the corrected third tier: CLI
beats environment beats persisted config, but for a key in both config
sections the "custom" section wins (it is merged after "defaults");
then the template-declared default, then `""`.  The law is stated for
keys other than the computed keys `timestamp`/`year`/`date` (which are
overwritten unconditionally after the CLI tier) and other than the CLI
bookkeeping keys. -/
theorem C1_amended (k K raw : LStr) (vc vd vcu vt : PyVal) (ts dt : LStr)
    (yr : Int)
    (hK : pyLower K = k)
    (hts : k ≠ "timestamp".data) (hyr : k ≠ "year".data) (hdt : k ≠ "date".data)
    (hh : k ≠ "help".data) (hf : k ≠ "func".data) (hcm : k ≠ "command".data)
    (hcf : k ≠ "config".data) :
    dget (build_context (some [(k, vd)]) (some [(k, vcu)])
        [("GRADLE_INIT_".data ++ K, raw)] [(k, some vc)] none ts dt yr
        [⟨k, [], [], k, some vt, none, false⟩]) k = some vc ∧
    dget (build_context (some [(k, vd)]) (some [(k, vcu)])
        [("GRADLE_INIT_".data ++ K, raw)] [] none ts dt yr
        [⟨k, [], [], k, some vt, none, false⟩]) k = some (parse_env_value raw) ∧
    dget (build_context (some [(k, vd)]) (some [(k, vcu)]) [] [] none ts dt yr
        [⟨k, [], [], k, some vt, none, false⟩]) k = some vcu ∧
    dget (build_context (some [(k, vd)]) none [] [] none ts dt yr
        [⟨k, [], [], k, some vt, none, false⟩]) k = some vd ∧
    dget (build_context none none [] [] none ts dt yr
        [⟨k, [], [], k, some vt, none, false⟩]) k = some vt ∧
    dget (build_context none none [] [] none ts dt yr
        [⟨k, [], [], k, none, none, false⟩]) k = some (.vstr []) := by
  have hCC : ∀ x : Ctx, applyCliConfig none x = x := fun _ => rfl
  have hDC : applyConfigSections (some [(k, vd)]) (some [(k, vcu)]) [] = [(k, vcu)] := by
    simp [applyConfigSections, dupdate, dset]
  have hD : applyConfigSections (some [(k, vd)]) none [] = [(k, vd)] := by
    simp [applyConfigSections, dupdate, dset]
  have hE : applyEnv [("GRADLE_INIT_".data ++ K, raw)] [(k, vcu)] =
      [(k, parse_env_value raw)] := by
    show envStep [(k, vcu)] ("GRADLE_INIT_".data ++ K, raw) = _
    rw [envStep_gradle, hK]
    simp [dset]
  have hfinal : ∀ (c : Ctx) (u : PyVal), dget c k = some u →
      dget (applyTemplateDefaults [(⟨k, [], [], k, some vt, none, false⟩ : TemplateArgument)]
        (applyComputed ts dt yr c)) k = some u := by
    intro c u hu
    have hget : dget (applyComputed ts dt yr c) k = some u := by
      rw [dget_applyComputed _ _ _ _ _ hts hyr hdt]; exact hu
    simp only [applyTemplateDefaults, List.foldl_cons, List.foldl_nil]
    rw [targStep_present _ _ u hget]
    exact hget
  refine ⟨?_, ?_, ?_, ?_, ?_, ?_⟩
  · -- all four sources: the CLI value wins
    simp only [build_context]
    rw [hDC, hE]
    have hC : applyCli [(k, some vc)] [(k, parse_env_value raw)] = [(k, vc)] := by
      show cliStep [(k, parse_env_value raw)] (k, some vc) = _
      rw [cliStep_set _ _ _ hh hf hcm hcf]
      simp [dset]
    rw [hC, hCC]
    exact hfinal [(k, vc)] vc (by simp [dget])
  · -- no CLI: the coerced environment value
    simp only [build_context]
    rw [hDC, hE]
    rw [show applyCli [] [(k, parse_env_value raw)] = [(k, parse_env_value raw)] from rfl,
      hCC]
    exact hfinal [(k, parse_env_value raw)] _ (by simp [dget])
  · -- no CLI, no env: the "custom" section wins over "defaults"
    simp only [build_context]
    rw [hDC]
    rw [show applyEnv [] [(k, vcu)] = [(k, vcu)] from rfl,
      show applyCli [] [(k, vcu)] = [(k, vcu)] from rfl, hCC]
    exact hfinal [(k, vcu)] vcu (by simp [dget])
  · -- only "defaults"
    simp only [build_context]
    rw [hD]
    rw [show applyEnv [] [(k, vd)] = [(k, vd)] from rfl,
      show applyCli [] [(k, vd)] = [(k, vd)] from rfl, hCC]
    exact hfinal [(k, vd)] vd (by simp [dget])
  · -- no persisted config: the template-declared default
    simp only [build_context]
    rw [show applyConfigSections none none [] = ([] : Ctx) from rfl,
      show applyEnv [] ([] : Ctx) = [] from rfl,
      show applyCli [] ([] : Ctx) = [] from rfl, hCC]
    have h0 : dget (applyComputed ts dt yr []) k = none := by
      rw [dget_applyComputed _ _ _ _ _ hts hyr hdt]; rfl
    simp only [applyTemplateDefaults, List.foldl_cons, List.foldl_nil]
    rw [targStep_absent _ _ h0]
    exact dget_dset_self _ _ _
  · -- declared variable with no source at all: the empty string
    simp only [build_context]
    rw [show applyConfigSections none none [] = ([] : Ctx) from rfl,
      show applyEnv [] ([] : Ctx) = [] from rfl,
      show applyCli [] ([] : Ctx) = [] from rfl, hCC]
    have h0 : dget (applyComputed ts dt yr []) k = none := by
      rw [dget_applyComputed _ _ _ _ _ hts hyr hdt]; rfl
    simp only [applyTemplateDefaults, List.foldl_cons, List.foldl_nil]
    rw [targStep_absent _ _ h0]
    exact dget_dset_self _ _ _


/-- Witness for C1 (amended) at a concrete key with all sources
supplied. -/
theorem C1_amended_witness :
    dget (build_context (some [("jdk".data, .vstr "d".data)])
        (some [("jdk".data, .vstr "c".data)])
        [("GRADLE_INIT_".data ++ "JDK".data, "17".data)]
        [("jdk".data, some (.vstr "21".data))] none "T".data "D".data 2026
        [⟨"jdk".data, [], [], "jdk".data, some (.vstr "11".data), none, false⟩])
        "jdk".data = some (.vstr "21".data) :=
  (C1_amended "jdk".data "JDK".data "17".data (.vstr "21".data) (.vstr "d".data)
    (.vstr "c".data) (.vstr "11".data) "T".data "D".data 2026 (by decide)
    (by decide) (by decide) (by decide) (by decide) (by decide) (by decide)
    (by decide)).1

/-- C9: typed coercion is a single function (`_parse_env_value`) applied
both to environment values and to `--config` values, in the order:
case-insensitive booleans, then base-10 integers, then comma lists, then
the unmodified string; with the concrete table
true→true, NO→false, 8080→8080, "web,data-jpa"→list, "my-app"→string. -/
theorem C9_coercion :
    (parse_env_value "true".data = .vbool true ∧
     parse_env_value "NO".data = .vbool false ∧
     parse_env_value "8080".data = .vint 8080 ∧
     parse_env_value "web,data-jpa".data = .vlist ["web".data, "data-jpa".data] ∧
     parse_env_value "my-app".data = .vstr "my-app".data) ∧
    (∀ s, (pyLower s = "true".data ∨ pyLower s = "yes".data ∨ pyLower s = "1".data) →
      parse_env_value s = .vbool true) ∧
    (∀ s, ¬(pyLower s = "true".data ∨ pyLower s = "yes".data ∨ pyLower s = "1".data) →
      (pyLower s = "false".data ∨ pyLower s = "no".data ∨ pyLower s = "0".data) →
      parse_env_value s = .vbool false) ∧
    (∀ s n, ¬(pyLower s = "true".data ∨ pyLower s = "yes".data ∨ pyLower s = "1".data) →
      ¬(pyLower s = "false".data ∨ pyLower s = "no".data ∨ pyLower s = "0".data) →
      pyInt s = some n → parse_env_value s = .vint n) ∧
    (∀ s, ¬(pyLower s = "true".data ∨ pyLower s = "yes".data ∨ pyLower s = "1".data) →
      ¬(pyLower s = "false".data ∨ pyLower s = "no".data ∨ pyLower s = "0".data) →
      pyInt s = none → s.contains ',' = true →
      parse_env_value s = .vlist ((pySplit ',' s).map pyStrip)) ∧
    (∀ s, ¬(pyLower s = "true".data ∨ pyLower s = "yes".data ∨ pyLower s = "1".data) →
      ¬(pyLower s = "false".data ∨ pyLower s = "no".data ∨ pyLower s = "0".data) →
      pyInt s = none → s.contains ',' = false → parse_env_value s = .vstr s) ∧
    (∀ (K raw ts dt : LStr) (yr : Int) (k : LStr), pyLower K = k →
      k ≠ "timestamp".data → k ≠ "year".data → k ≠ "date".data →
      dget (build_context none none [("GRADLE_INIT_".data ++ K, raw)] [] none
        ts dt yr []) k = some (parse_env_value raw)) ∧
    (∀ (raw ts dt : LStr) (yr : Int),
      dget (build_context none none [] [] (some [('k' :: '=' :: raw)]) ts dt yr [])
        ['k'] = some (parse_env_value raw)) := by
  refine ⟨⟨by decide, by decide, by decide, by decide, by decide⟩,
    ?_, ?_, ?_, ?_, ?_, ?_, ?_⟩
  · intro s h
    simp only [parse_env_value]
    rw [if_pos h]
  · intro s h1 h2
    simp only [parse_env_value]
    rw [if_neg h1, if_pos h2]
  · intro s n h1 h2 hint
    simp only [parse_env_value]
    rw [if_neg h1, if_neg h2]
    simp only [hint]
  · intro s h1 h2 hint hc
    simp only [parse_env_value]
    rw [if_neg h1, if_neg h2]
    simp only [hint, hc, if_true]
  · intro s h1 h2 hint hc
    simp only [parse_env_value]
    rw [if_neg h1, if_neg h2]
    simp only [hint, hc]
    rfl
  · intro K raw ts dt yr k hK hts hyr hdt
    simp only [build_context]
    have hE : applyEnv [("GRADLE_INIT_".data ++ K, raw)] [] =
        [(k, parse_env_value raw)] := by
      show envStep [] ("GRADLE_INIT_".data ++ K, raw) = _
      rw [envStep_gradle, hK]
      rfl
    rw [show applyConfigSections none none [] = ([] : Ctx) from rfl, hE,
      show applyCli [] [(k, parse_env_value raw)] = [(k, parse_env_value raw)] from rfl,
      show applyCliConfig none [(k, parse_env_value raw)] = [(k, parse_env_value raw)] from rfl]
    show dget (applyComputed ts dt yr [(k, parse_env_value raw)]) k = _
    rw [dget_applyComputed _ _ _ _ _ hts hyr hdt]
    simp [dget]
  · intro raw ts dt yr
    show dget (applyComputed ts dt yr (dset [] ['k'] (parse_env_value raw))) ['k'] = _
    rw [dget_applyComputed _ _ _ _ _ (by decide) (by decide) (by decide)]
    simp [dset, dget]


/-- Witness for C9 at concrete inputs, exercising boolean, integer, the
environment call site and the `--config` call site. -/
theorem C9_coercion_witness :
    parse_env_value "TRUE".data = .vbool true ∧
    parse_env_value " 42 ".data = .vint 42 ∧
    dget (build_context none none
        [("GRADLE_INIT_".data ++ "PORT".data, "8080".data)] [] none
        "T".data "D".data 2026 []) "port".data = some (.vint 8080) ∧
    dget (build_context none none [] []
        (some [('k' :: '=' :: "web,data".data)]) "T".data "D".data 2026 [])
        ['k'] = some (.vlist ["web".data, "data".data]) := by
  refine ⟨?_, ?_, ?_, ?_⟩
  · exact C9_coercion.2.1 "TRUE".data (by decide)
  · exact C9_coercion.2.2.2.1 " 42 ".data 42 (by decide) (by decide) (by decide)
  · have h := C9_coercion.2.2.2.2.2.2.1 "PORT".data "8080".data "T".data "D".data
      2026 "port".data (by decide) (by decide) (by decide) (by decide)
    rw [h]
    decide
  · have h := C9_coercion.2.2.2.2.2.2.2 "web,data".data "T".data "D".data 2026
    rw [h]
    decide

end GradleInit
